import Mathlib

/-!
Verification of the cache-aside layer of a Django CRUD API
(users / passengers / riders).

The source is embedded shallowly:

* `Cache` models the external key-value cache (`django.core.cache.cache`)
  as an association list from string keys to stored payloads.  TTLs are
  carried opaquely (claims are conditioned on "no TTL expiry", so time
  never advances in this model).
* `PyVal` models the Python values that may be passed as the
  `identifier` argument of `get_cache_key`, together with Python
  truthiness (`if identifier:`).
* `Kind` is the resource kind (user / passenger / rider).  The three
  view sets in `users/views.py` are textually identical up to the kind
  name, so they are embedded once, parametrised by `Kind`.
* View operations (`list`, `retrieve`, `perform_create`,
  `perform_update`, `perform_destroy`) are state transformers on the
  cache that also report the number of Record Provider calls made; the
  Record Provider itself is an opaque parameter (its payloads and their
  outcomes are inputs).
* The `post_save` / `post_delete` signal handlers of
  `users/cache_signals.py` are embedded as `invalidate_cache_on_save` /
  `invalidate_cache_on_delete`; they fire synchronously inside
  `super().perform_*` exactly when the write succeeds.
* The `warm_cache` management command and the `cached_result`
  decorator of `users/cache_decorators.py` are embedded further below.
-/

/-- A Python value usable as the `identifier` argument of
`get_cache_key` in `users/views.py`: `None`, an `int` primary key
(`serializer.instance.id`), or the string pk taken from the URL kwargs
(`kwargs.get('pk')`). -/
inductive PyVal where
  | none
  | int (n : Nat)
  | str (s : String)
deriving DecidableEq, Repr

/-- Python truthiness of a `PyVal`, as tested by `if identifier:`. -/
def PyVal.truthy : PyVal → Bool
  | .none => false
  | .int n => n != 0
  | .str s => s != ""

/-- The text a `PyVal` contributes inside an f-string
(`f"{pre}_{identifier}"`). -/
def PyVal.fstr : PyVal → String
  | .none => "None"
  | .int n => toString n
  | .str s => s

/-- Look up a key in an association list (first match wins). -/
def assocGet {π : Type} : List (String × π) → String → Option π
  | [], _ => none
  | (k, v) :: rest, key => if k = key then some v else assocGet rest key

/-- Remove every entry with the given key from an association list. -/
def assocRemove {π : Type} : List (String × π) → String → List (String × π)
  | [], _ => []
  | (k, v) :: rest, key =>
    if k = key then assocRemove rest key else (k, v) :: assocRemove rest key

/-- The external key-value cache (`django.core.cache.cache`), modelled
as an association list keyed by string.  The TTL passed to `set` is
recorded but never consulted: every claim below is stated under "no TTL
expiry". -/
structure Cache (π : Type) where
  entries : List (String × π)
deriving DecidableEq, Repr

namespace Cache

/-- The empty cache. -/
def empty {π : Type} : Cache π := ⟨[]⟩

/-- Model of `cache.get(key)`: the stored payload, or `none` when the key is
absent. -/
def get {π : Type} (c : Cache π) (key : String) : Option π :=
  assocGet c.entries key

/-- Model of `cache.set(key, value, timeout=ttl)`: store `value` under `key`,
overwriting any previous entry. -/
def set {π : Type} (c : Cache π) (key : String) (value : π) (_ttl : Nat) : Cache π :=
  ⟨(key, value) :: assocRemove c.entries key⟩

/-- Model of `cache.delete(key)`: remove the entry for `key` (a no-op when
absent). -/
def delete {π : Type} (c : Cache π) (key : String) : Cache π :=
  ⟨assocRemove c.entries key⟩

/-- Model of `cache.clear()`: wipe the namespace (used by the warmer's
`--clear` option). -/
def clear {π : Type} (_c : Cache π) : Cache π := ⟨[]⟩

end Cache

/-- Model of `get_cache_key(prefix, identifier=None)` from `users/views.py`:
`if identifier: return f"{prefix}_{identifier}"` — note the Python
truthiness test — `return prefix` otherwise.  (The first parameter is
named `pre` here because its Python name is a reserved word in Lean.) -/
def get_cache_key (pre : String) (identifier : PyVal := .none) : String :=
  if identifier.truthy then pre ++ "_" ++ identifier.fstr else pre

/-- Resource kind: the three near-identical view sets of
`users/views.py`. -/
inductive Kind where
  | user
  | passenger
  | rider
deriving DecidableEq, Repr

/-- The kind's name, as it appears in the cache-key literals of the
source (`'user'`, `'passenger'`, `'rider'`). -/
def Kind.name : Kind → String
  | .user => "user"
  | .passenger => "passenger"
  | .rider => "rider"

/-- The kind's constant list key (`'user_list'`, `'passenger_list'`,
`'rider_list'`). -/
def Kind.listKey (k : Kind) : String := k.name ++ "_list"

/-- The detail key written by the f-strings of `cache_signals.py` and
`warm_cache.py`: `f'user_{instance.id}'`. -/
def Kind.fKey (k : Kind) (id : Nat) : String := k.name ++ "_" ++ toString id

/-- Default TTL (`settings.CACHE_TTL`); its value never matters in this
model, only that it is what every `cache.set` of the source passes. -/
def CACHE_TTL : Nat := 900

/-- Result of a read-through view call: the payload produced (or the
propagated provider error), the cache afterwards, and how many Record
Provider calls were made. -/
structure ReadResult (ε π : Type) where
  payload : Except ε π
  cache : Cache π
  providerCalls : Nat

/-- Model of `UserViewSet.list` (identically `PassengerViewSet.list`,
`RiderViewSet.list`): compute the list key with `get_cache_key`, try
`cache.get`; on hit return the cached payload at once; on miss call the
Record Provider (`super().list(...)`, payload `providerList`), store it
with `cache.set(..., timeout=CACHE_TTL)`, and return it. -/
def viewSet_list {ε π : Type} (k : Kind) (providerList : π) (c : Cache π) :
    ReadResult ε π :=
  let cache_key := get_cache_key k.listKey
  match c.get cache_key with
  | some cached_data => ⟨.ok cached_data, c, 0⟩
  | none => ⟨.ok providerList, c.set cache_key providerList CACHE_TTL, 1⟩

/-- Model of `UserViewSet.retrieve` (identically for passenger / rider): the pk
comes from the URL kwargs (`kwargs.get('pk')`); key =
`get_cache_key(kind, pk)`; on hit return cached data; on miss call the
Record Provider (`super().retrieve(...)`, outcome `providerGet` — an
exception such as 404 propagates with nothing cached), else
`cache.set` and return. -/
def viewSet_retrieve {ε π : Type} (k : Kind) (pk : PyVal)
    (providerGet : Except ε π) (c : Cache π) : ReadResult ε π :=
  let cache_key := get_cache_key k.name pk
  match c.get cache_key with
  | some cached_data => ⟨.ok cached_data, c, 0⟩
  | none =>
    match providerGet with
    | .error e => ⟨.error e, c, 1⟩
    | .ok d => ⟨.ok d, c.set cache_key d CACHE_TTL, 1⟩

/-- Model of `post_save` signal handler (`invalidate_user_cache` and its
passenger / rider copies in `users/cache_signals.py`): always delete
the list key; delete the f-string detail key `f'user_{instance.id}'`
only when `not created`. -/
def invalidate_cache_on_save {π : Type} (k : Kind) (instanceId : Nat)
    (created : Bool) (c : Cache π) : Cache π :=
  let c1 := c.delete k.listKey
  if !created then c1.delete (k.fKey instanceId) else c1

/-- Model of `post_delete` signal handler (`invalidate_user_cache_on_delete` and
its passenger / rider copies): delete the list key and the f-string
detail key. -/
def invalidate_cache_on_delete {π : Type} (k : Kind) (instanceId : Nat)
    (c : Cache π) : Cache π :=
  (c.delete k.listKey).delete (k.fKey instanceId)

/-- Outcome of a write-path view operation: whether the Record Provider
write succeeded, and the cache afterwards. -/
structure WriteResult (π : Type) where
  succeeded : Bool
  cache : Cache π

/-- Model of `UserViewSet.perform_create` (identically for passenger / rider):
first `cache.delete(get_cache_key('user_list'))`, then
`super().perform_create(serializer)` — the actual write.  `writeOk`
says whether that write succeeds; on success `serializer.save()` fires
`post_save` with `created=True` synchronously, on failure the exception
propagates (but the preceding cache delete has already happened). -/
def perform_create {π : Type} (k : Kind) (newId : Nat) (writeOk : Bool)
    (c : Cache π) : WriteResult π :=
  let c1 := c.delete (get_cache_key k.listKey)
  if writeOk then ⟨true, invalidate_cache_on_save k newId true c1⟩
  else ⟨false, c1⟩

/-- Model of `UserViewSet.perform_update` (identically for passenger / rider):
delete the list key and `get_cache_key('user', user_id)` with the
integer `serializer.instance.id`, then `super().perform_update` — on
success `post_save` fires with `created=False`. -/
def perform_update {π : Type} (k : Kind) (instanceId : Nat) (writeOk : Bool)
    (c : Cache π) : WriteResult π :=
  let c1 := c.delete (get_cache_key k.listKey)
  let c2 := c1.delete (get_cache_key k.name (.int instanceId))
  if writeOk then ⟨true, invalidate_cache_on_save k instanceId false c2⟩
  else ⟨false, c2⟩

/-- Model of `UserViewSet.perform_destroy` (identically for passenger / rider):
delete the list key and `get_cache_key('user', instance.id)`, then
`super().perform_destroy` — on success `post_delete` fires. -/
def perform_destroy {π : Type} (k : Kind) (instanceId : Nat) (writeOk : Bool)
    (c : Cache π) : WriteResult π :=
  let c1 := c.delete (get_cache_key k.listKey)
  let c2 := c1.delete (get_cache_key k.name (.int instanceId))
  if writeOk then ⟨true, invalidate_cache_on_delete k instanceId c2⟩
  else ⟨false, c2⟩

/-- A cached payload: either the serialized list of all records of a
kind (stored under the list key) or a single serialized record (stored
under a detail key). -/
inductive Payload (π : Type) where
  | items (xs : List π)
  | item (x : π)
deriving DecidableEq, Repr

/-- One per-kind block of `Command.handle` in
`users/management/commands/warm_cache.py`: serialize all records of
the kind (`Serializer(objs, many=True).data` — raises if any record
fails to serialize), `cache.set` the list key, then loop over the
records setting each f-string detail key and counting.  Each record is
given as its id together with its serialization outcome; an exception
aborts the block with the cache untouched by it. -/
def warm_kind {ε π : Type} (k : Kind) (records : List (Nat × Except ε π))
    (c : Cache (Payload π)) : Except ε (Cache (Payload π) × Nat) :=
  match records.mapM (fun r => r.2) with
  | .error e => .error e
  | .ok payloads =>
    let c1 := c.set k.listKey (.items payloads) CACHE_TTL
    let c2 := (records.zip payloads).foldl
      (fun acc p => acc.set (k.fKey p.1.1) (.item p.2) CACHE_TTL) c1
    .ok (c2, payloads.length)

/-- Outcome of `Command.handle` of `warm_cache.py`: the cache
afterwards, the per-kind success counts written to stdout before any
failure, and the re-raised exception when the single `try` around the
whole body caught one. -/
structure HandleResult (ε π : Type) where
  cache : Cache (Payload π)
  reports : List (Kind × Nat)
  raised : Option ε

/-- Model of `Command.handle` of `warm_cache.py`: optionally `cache.clear()`,
then warm users, passengers, riders in sequence.  The whole body sits
in one `try/except` that logs and re-`raise`s, so the first failing
record aborts every remaining record and kind. -/
def Command_handle {ε π : Type} (clearOpt : Bool)
    (records : Kind → List (Nat × Except ε π)) (c0 : Cache (Payload π)) :
    HandleResult ε π :=
  let c := if clearOpt then c0.clear else c0
  match warm_kind Kind.user (records .user) c with
  | .error e => ⟨c, [], some e⟩
  | .ok (c1, n1) =>
    match warm_kind Kind.passenger (records .passenger) c1 with
    | .error e => ⟨c1, [(.user, n1)], some e⟩
    | .ok (c2, n2) =>
      match warm_kind Kind.rider (records .rider) c2 with
      | .error e => ⟨c2, [(.user, n1), (.passenger, n2)], some e⟩
      | .ok (c3, n3) => ⟨c3, [(.user, n1), (.passenger, n2), (.rider, n3)], none⟩

/-- One call of a function wrapped by the `cached_result` decorator of
`users/cache_decorators.py`.  The decorator computes
`cache_key = f"cached_{func.__name__}"` once, from the function name
only; the wrapper ignores `*args, **kwargs` when looking up.  The last
component counts executions of the wrapped function. -/
def cached_result_call {α π : Type} (funcName : String) (ttl : Nat)
    (f : α → π) (arg : α) (c : Cache π) : π × Cache π × Nat :=
  let cache_key := "cached_" ++ funcName
  match c.get cache_key with
  | some result => (result, c, 0)
  | none =>
    let result := f arg
    (result, c.set cache_key result ttl, 1)

/-- Model of `UserViewSet.list` re-examined with a cache backend that may raise:
the method body has no `try/except`, so an exception from `cache.get`
propagates out of `list` before the Record Provider is consulted.
`cacheGet` is the backend's response as a function of the key. -/
def viewSet_list_cacheExc {ε π : Type} (k : Kind)
    (cacheGet : String → Except ε (Option π)) (providerList : π) :
    Except ε (π × Nat) :=
  let cache_key := get_cache_key k.listKey
  match cacheGet cache_key with
  | .error e => .error e
  | .ok (some cached_data) => .ok (cached_data, 0)
  | .ok none => .ok (providerList, 1)

/-- Model of `RiderViewSet.retrieve` (identical to the user / passenger copies)
with a cache backend that may raise: no `try/except` in the body, so a
`cache.get` exception propagates and the request fails. -/
def viewSet_retrieve_cacheExc {ε π : Type} (k : Kind) (pk : PyVal)
    (cacheGet : String → Except ε (Option π)) (providerGet : Except ε π) :
    Except ε (π × Nat) :=
  let cache_key := get_cache_key k.name pk
  match cacheGet cache_key with
  | .error e => .error e
  | .ok (some cached_data) => .ok (cached_data, 0)
  | .ok none =>
    match providerGet with
    | .error e => .error e
    | .ok d => .ok (d, 1)

/-- Concrete record sets used to instantiate the warm-then-read
scenario: one user, one passenger, one rider. -/
def demoRecords : Kind → List (Nat × Nat)
  | .user => [(1, 10)]
  | .passenger => [(2, 20)]
  | .rider => [(3, 30)]

/-! Theorems.  First the generic facts about the association-list cache
and decimal ids, then the claim theorems. -/

theorem assocGet_remove_self {π : Type} (l : List (String × π)) (key : String) :
    assocGet (assocRemove l key) key = none := by
  induction l with
  | nil => rfl
  | cons hd tl ih =>
    obtain ⟨k, v⟩ := hd
    by_cases h : k = key <;> simp [assocRemove, assocGet, h, ih]

theorem assocGet_remove_ne {π : Type} (l : List (String × π)) (key k' : String)
    (h : k' ≠ key) : assocGet (assocRemove l key) k' = assocGet l k' := by
  induction l with
  | nil => rfl
  | cons hd tl ih =>
    obtain ⟨k, v⟩ := hd
    by_cases hk : k = key
    · have hkk' : k ≠ k' := fun he => h (he ▸ hk)
      simp [assocRemove, assocGet, hk, hkk', Ne.symm h, ih]
    · simp [assocRemove, assocGet, hk, ih]

namespace Cache

theorem get_set_self {π : Type} (c : Cache π) (k : String) (v : π) (ttl : Nat) :
    (c.set k v ttl).get k = some v := by
  simp [get, set, assocGet]

theorem get_set_ne {π : Type} (c : Cache π) (k k' : String) (v : π) (ttl : Nat)
    (h : k' ≠ k) : (c.set k v ttl).get k' = c.get k' := by
  have hkk' : k ≠ k' := fun he => h he.symm
  simp [get, set, assocGet, hkk', assocGet_remove_ne c.entries k k' h]

theorem get_delete_self {π : Type} (c : Cache π) (k : String) :
    (c.delete k).get k = none :=
  assocGet_remove_self _ _

theorem get_delete_ne {π : Type} (c : Cache π) (k k' : String) (h : k' ≠ k) :
    (c.delete k).get k' = c.get k' :=
  assocGet_remove_ne _ _ _ h

end Cache

/-! Auxiliary facts about decimal representations of `Nat`, needed to
relate the URL pk string of a record id to the f-string detail keys. -/

theorem toDigitsCore_length_le (base : Nat) (fuel n : Nat) (ds : List Char) :
    ds.length ≤ (Nat.toDigitsCore base fuel n ds).length := by
  induction fuel generalizing n ds with
  | zero => simp [Nat.toDigitsCore]
  | succ fuel ih =>
    simp only [Nat.toDigitsCore]
    split
    · simp
    · exact le_trans (by simp) (ih _ _)

theorem toDigitsCore_length_succ (base : Nat) (fuel n : Nat) (ds : List Char) :
    ds.length + 1 ≤ (Nat.toDigitsCore base (fuel+1) n ds).length := by
  simp only [Nat.toDigitsCore]
  split
  · simp
  · exact le_trans (by simp) (toDigitsCore_length_le base fuel _ _)

/-- The decimal representation of a `Nat` is never the empty string. -/
theorem natRepr_ne_empty (n : Nat) : Nat.repr n ≠ "" := by
  intro h
  have hdata : Nat.toDigits 10 n = [] := by
    have := congrArg String.data h
    simpa [Nat.repr, List.asString] using this
  have := toDigitsCore_length_succ 10 n n []
  rw [show Nat.toDigitsCore 10 (n+1) n [] = Nat.toDigits 10 n from rfl, hdata] at this
  simp at this

theorem digitChar_ne_l (m : Nat) : Nat.digitChar m ≠ 'l' := by
  by_cases h : m < 16
  · interval_cases m <;> decide
  · simp only [Nat.digitChar,
      if_neg (show ¬ m = 0 by omega), if_neg (show ¬ m = 1 by omega),
      if_neg (show ¬ m = 2 by omega), if_neg (show ¬ m = 3 by omega),
      if_neg (show ¬ m = 4 by omega), if_neg (show ¬ m = 5 by omega),
      if_neg (show ¬ m = 6 by omega), if_neg (show ¬ m = 7 by omega),
      if_neg (show ¬ m = 8 by omega), if_neg (show ¬ m = 9 by omega),
      if_neg (show ¬ m = 0xa by omega), if_neg (show ¬ m = 0xb by omega),
      if_neg (show ¬ m = 0xc by omega), if_neg (show ¬ m = 0xd by omega),
      if_neg (show ¬ m = 0xe by omega), if_neg (show ¬ m = 0xf by omega)]
    decide

theorem toDigitsCore_mem (base fuel n : Nat) (ds : List Char) (c : Char)
    (hc : c ∈ Nat.toDigitsCore base fuel n ds) :
    c ∈ ds ∨ ∃ m, Nat.digitChar m = c := by
  induction fuel generalizing n ds with
  | zero => exact .inl (by simpa [Nat.toDigitsCore] using hc)
  | succ fuel ih =>
    simp only [Nat.toDigitsCore] at hc
    split at hc
    · rcases List.mem_cons.1 hc with h | h
      · exact .inr ⟨_, h.symm⟩
      · exact .inl h
    · rcases ih _ _ hc with h | h
      · rcases List.mem_cons.1 h with h | h
        · exact .inr ⟨_, h.symm⟩
        · exact .inl h
      · exact .inr h

/-- The decimal representation of a `Nat` is never the string
`"list"`, so detail keys never collide with list keys. -/
theorem natRepr_ne_list (n : Nat) : Nat.repr n ≠ "list" := by
  intro h
  have hdata : Nat.toDigits 10 n = ['l', 'i', 's', 't'] := by
    have := congrArg String.data h
    simpa [Nat.repr, List.asString] using this
  have hmem : 'l' ∈ Nat.toDigitsCore 10 (n+1) n [] := by
    rw [show Nat.toDigitsCore 10 (n+1) n [] = Nat.toDigits 10 n from rfl, hdata]
    simp
  rcases toDigitsCore_mem 10 (n+1) n [] 'l' hmem with h | ⟨m, hm⟩
  · simp at h
  · exact digitChar_ne_l m hm

/-- The detail key for any id differs from the kind's list key. -/
theorem fKey_ne_listKey (k : Kind) (i : Nat) : k.fKey i ≠ k.listKey := by
  intro h
  have hd := congrArg String.data h
  simp only [Kind.fKey, Kind.listKey, String.data_append] at hd
  rw [List.append_assoc] at hd
  have hd2 := List.append_cancel_left hd
  have : (toString i).data = "list".data := by
    have : ('_' :: (toString i).data : List Char) = '_' :: "list".data := by
      simpa using hd2
    simpa using this
  exact natRepr_ne_list i (by
    apply String.ext
    simpa using this)

/-- The key `retrieve` computes from the URL pk of record `i` equals
the f-string detail key the signal handlers and the warmer write. -/
theorem retrieve_key_eq_fKey (k : Kind) (i : Nat) :
    get_cache_key k.name (.str (toString i)) = k.fKey i := by
  have h0 : toString i ≠ "" := natRepr_ne_empty i
  have h : (PyVal.str (toString i)).truthy = true := by
    simp [PyVal.truthy, h0]
  simp [get_cache_key, h, PyVal.fstr, Kind.fKey]

/-! Shared helper lemmas about the embedded operations. -/

/-- With the identifier omitted, `get_cache_key` returns the prefix
unchanged (the path taken for list keys). -/
theorem get_cache_key_default (pre : String) : get_cache_key pre = pre := rfl

/-- Overwriting with `set` never removes a present key. -/
theorem Cache.get_set_isSome {π : Type} (c : Cache π) (k' key : String) (v : π)
    (ttl : Nat) (h : ∃ w, c.get key = some w) :
    ∃ w, (c.set k' v ttl).get key = some w := by
  by_cases hk : key = k'
  · subst hk; exact ⟨v, Cache.get_set_self c key v ttl⟩
  · rw [Cache.get_set_ne c k' key v ttl hk]; exact h

/-! C1. -/

/-- C1: for every kind, a `list` call that finds a cached payload
returns it immediately with zero Record Provider calls; hence two
consecutive `list` calls with no intervening write return the same
payload and the second performs no Record Provider call (stated with an
arbitrary second provider payload, which is never consulted). -/
theorem C1_list_hit_and_idempotent {ε π : Type} (k : Kind) (p₁ p₂ : π)
    (c : Cache π) :
    (∀ d, c.get (get_cache_key k.listKey) = some d →
      viewSet_list (ε := ε) k p₁ c = ⟨.ok d, c, 0⟩) ∧
    ((viewSet_list (ε := ε) k p₂ (viewSet_list (ε := ε) k p₁ c).cache).payload
        = (viewSet_list (ε := ε) k p₁ c).payload ∧
      (viewSet_list (ε := ε) k p₂
        (viewSet_list (ε := ε) k p₁ c).cache).providerCalls = 0) := by
  constructor
  · intro d hd
    simp [viewSet_list, hd]
  · cases h : c.get (get_cache_key k.listKey) with
    | some d => simp [viewSet_list, h]
    | none => simp [viewSet_list, h, Cache.get_set_self]

/-- C1 witness: a concrete hit returns the cached payload with zero
provider calls. -/
theorem C1_witness :
    Cache.get (Cache.set (Cache.empty : Cache Nat) "user_list" 5 900)
        (get_cache_key Kind.user.listKey) = some 5 ∧
    viewSet_list (ε := Unit) Kind.user 7
        (Cache.set (Cache.empty : Cache Nat) "user_list" 5 900)
      = ⟨.ok 5, Cache.set (Cache.empty : Cache Nat) "user_list" 5 900, 0⟩ := by
  refine ⟨rfl, ?_⟩
  exact (C1_list_hit_and_idempotent (ε := Unit) Kind.user 7 7
    (Cache.set (Cache.empty : Cache Nat) "user_list" 5 900)).1 5 rfl

/-! C4. -/

/-- C4 counterexample: `get_cache_key` uses a Python truthiness test,
so the supplied identifier `0` falls into the "omitted" branch and the
result is `"user"`, not `"user_0"` as the claim requires. -/
theorem C4_counterexample :
    get_cache_key "user" (.int 0) = "user" ∧
    get_cache_key "user" (.int 0) ≠ "user_0" := by
  exact ⟨rfl, by decide⟩

/-- C4 amended: `get_cache_key` returns `"{prefix}_{identifier}"`
exactly when the identifier is truthy (non-`None`, non-zero,
non-empty), and returns the prefix unchanged when the identifier is
omitted or falsy. -/
theorem C4_amended_key_format (pre : String) (id : PyVal) :
    (id.truthy = true → get_cache_key pre id = pre ++ "_" ++ id.fstr) ∧
    (id.truthy = false → get_cache_key pre id = pre) := by
  constructor <;> intro h <;> simp [get_cache_key, h]

/-- C4 witness: the amended rule at the identifiers `42` (truthy) and
`0` (falsy). -/
theorem C4_witness :
    get_cache_key "user" (.int 42) = "user" ++ "_" ++ (PyVal.int 42).fstr ∧
    get_cache_key "user" (.int 0) = "user" :=
  ⟨(C4_amended_key_format "user" (.int 42)).1 (by decide),
   (C4_amended_key_format "user" (.int 0)).2 (by decide)⟩

/-! C6. -/

/-- C6: when the Record Provider fails during `retrieve` (a cache miss
forced the provider call), the error propagates to the caller unchanged
and the cache state after the failed retrieve equals the cache state
before it. -/
theorem C6_retrieve_error_propagates {ε π : Type} (k : Kind) (pk : PyVal)
    (e : ε) (c : Cache π)
    (h : c.get (get_cache_key k.name pk) = none) :
    viewSet_retrieve k pk (.error e) c = ⟨.error e, c, 1⟩ := by
  simp [viewSet_retrieve, h]

/-- C6 witness: a not-found error on a concrete miss propagates with
the cache untouched. -/
theorem C6_witness :
    Cache.get (Cache.empty : Cache Nat)
        (get_cache_key Kind.user.name (.str "99")) = none ∧
    viewSet_retrieve Kind.user (.str "99") (.error "NotFound")
        (Cache.empty : Cache Nat)
      = ⟨.error "NotFound", Cache.empty, 1⟩ :=
  ⟨rfl, C6_retrieve_error_propagates Kind.user (.str "99") "NotFound"
    Cache.empty rfl⟩

/-! C10. -/

/-- C10: the key of a `cached_result`-wrapped function is derived from
the function name only; once a call with argument `a` has populated the
cache, a call with any other argument `b` returns the result computed
for `a` without executing the wrapped function. -/
theorem C10_cached_result_ignores_args {α π : Type} (fn : String) (ttl : Nat)
    (f : α → π) (a b : α) (c : Cache π)
    (h : c.get ("cached_" ++ fn) = none) :
    (cached_result_call fn ttl f a c).1 = f a ∧
    (cached_result_call fn ttl f a c).2.2 = 1 ∧
    cached_result_call fn ttl f b (cached_result_call fn ttl f a c).2.1
      = (f a, (cached_result_call fn ttl f a c).2.1, 0) := by
  simp [cached_result_call, h, Cache.get_set_self]

/-- C10 witness: with `f n = n + 1`, calling first with `1` and then
with `2` returns the stale result `2` for the second call, with zero
executions of `f`. -/
theorem C10_witness :
    Cache.get (Cache.empty : Cache Nat) ("cached_" ++ "expensive_query") = none ∧
    ((cached_result_call "expensive_query" 300 (fun n => n + 1) 1 Cache.empty).1 = 2 ∧
     (cached_result_call "expensive_query" 300 (fun n => n + 1) 1 Cache.empty).2.2 = 1 ∧
     cached_result_call "expensive_query" 300 (fun n => n + 1) 2
        (cached_result_call "expensive_query" 300 (fun n => n + 1) 1 Cache.empty).2.1
      = (2, (cached_result_call "expensive_query" 300 (fun n => n + 1) 1
          Cache.empty).2.1, 0)) :=
  ⟨rfl, C10_cached_result_ignores_args "expensive_query" 300
    (fun n => n + 1) 1 2 Cache.empty rfl⟩

/-! Helper lemmas about the write-path operations. -/

theorem name_ne_listKey (k : Kind) : k.name ≠ k.listKey := by
  cases k <;> decide

/-- The key `perform_update` / `perform_destroy` delete for the integer
instance id never collides with the list key. -/
theorem gck_int_ne_listKey (k : Kind) (i : Nat) :
    get_cache_key k.name (.int i) ≠ k.listKey := by
  by_cases h : i = 0
  · subst h
    simpa [get_cache_key, PyVal.truthy] using name_ne_listKey k
  · have he : get_cache_key k.name (.int i) = k.fKey i := by
      simp [get_cache_key, PyVal.truthy, PyVal.fstr, Kind.fKey, h]
    rw [he]
    exact fKey_ne_listKey k i

theorem perform_create_cache_true {π : Type} (k : Kind) (i : Nat) (c : Cache π) :
    (perform_create k i true c).cache = (c.delete k.listKey).delete k.listKey := rfl

theorem perform_create_cache_false {π : Type} (k : Kind) (i : Nat) (c : Cache π) :
    (perform_create k i false c).cache = c.delete k.listKey := rfl

theorem perform_update_cache_true {π : Type} (k : Kind) (i : Nat) (c : Cache π) :
    (perform_update k i true c).cache
      = (((c.delete k.listKey).delete
          (get_cache_key k.name (.int i))).delete k.listKey).delete (k.fKey i) := rfl

theorem perform_update_cache_false {π : Type} (k : Kind) (i : Nat) (c : Cache π) :
    (perform_update k i false c).cache
      = (c.delete k.listKey).delete (get_cache_key k.name (.int i)) := rfl

theorem perform_destroy_cache_true {π : Type} (k : Kind) (i : Nat) (c : Cache π) :
    (perform_destroy k i true c).cache
      = (((c.delete k.listKey).delete
          (get_cache_key k.name (.int i))).delete k.listKey).delete (k.fKey i) := rfl

theorem perform_destroy_cache_false {π : Type} (k : Kind) (i : Nat) (c : Cache π) :
    (perform_destroy k i false c).cache
      = (c.delete k.listKey).delete (get_cache_key k.name (.int i)) := rfl

/-- After any `perform_create`, succeeded or not, the list key is
absent. -/
theorem perform_create_listKey_absent {π : Type} (k : Kind) (i : Nat)
    (writeOk : Bool) (c : Cache π) :
    (perform_create k i writeOk c).cache.get k.listKey = none := by
  cases writeOk
  · rw [perform_create_cache_false]
    exact Cache.get_delete_self _ _
  · rw [perform_create_cache_true]
    exact Cache.get_delete_self _ _

/-- After any `perform_update`, succeeded or not, the list key is
absent. -/
theorem perform_update_listKey_absent {π : Type} (k : Kind) (i : Nat)
    (writeOk : Bool) (c : Cache π) :
    (perform_update k i writeOk c).cache.get k.listKey = none := by
  cases writeOk
  · rw [perform_update_cache_false,
      Cache.get_delete_ne _ _ _ (Ne.symm (gck_int_ne_listKey k i))]
    exact Cache.get_delete_self _ _
  · rw [perform_update_cache_true,
      Cache.get_delete_ne _ _ _ (Ne.symm (fKey_ne_listKey k i))]
    exact Cache.get_delete_self _ _

/-- After any `perform_destroy`, succeeded or not, the list key is
absent. -/
theorem perform_destroy_listKey_absent {π : Type} (k : Kind) (i : Nat)
    (writeOk : Bool) (c : Cache π) :
    (perform_destroy k i writeOk c).cache.get k.listKey = none := by
  cases writeOk
  · rw [perform_destroy_cache_false,
      Cache.get_delete_ne _ _ _ (Ne.symm (gck_int_ne_listKey k i))]
    exact Cache.get_delete_self _ _
  · rw [perform_destroy_cache_true,
      Cache.get_delete_ne _ _ _ (Ne.symm (fKey_ne_listKey k i))]
    exact Cache.get_delete_self _ _

/-- After a successful `perform_update`, the f-string detail key is
absent (deleted by the `post_save` handler). -/
theorem perform_update_fKey_absent {π : Type} (k : Kind) (i : Nat) (c : Cache π) :
    (perform_update k i true c).cache.get (k.fKey i) = none := by
  rw [perform_update_cache_true]
  exact Cache.get_delete_self _ _

/-- After a successful `perform_destroy`, the f-string detail key is
absent (deleted by the `post_delete` handler). -/
theorem perform_destroy_fKey_absent {π : Type} (k : Kind) (i : Nat) (c : Cache π) :
    (perform_destroy k i true c).cache.get (k.fKey i) = none := by
  rw [perform_destroy_cache_true]
  exact Cache.get_delete_self _ _

/-! C2. -/

/-- C2: after a completed update of record `(k, i)`, both the list key
and the detail key `"{kind}_{id}"` are absent from the cache, and a
subsequent `retrieve(k, i)` (URL pk is the decimal string of `i`) does
not hit the cache: it issues exactly one Record Provider call. -/
theorem C2_update_invalidation_complete {ε π : Type} (k : Kind) (i : Nat)
    (c : Cache π) (pg : Except ε π) :
    (perform_update k i true c).cache.get k.listKey = none ∧
    (perform_update k i true c).cache.get (k.fKey i) = none ∧
    (viewSet_retrieve k (.str (toString i)) pg
        (perform_update k i true c).cache).providerCalls = 1 := by
  refine ⟨perform_update_listKey_absent k i true c,
    perform_update_fKey_absent k i c, ?_⟩
  have hkey : (perform_update k i true c).cache.get
      (get_cache_key k.name (.str (toString i))) = none := by
    rw [retrieve_key_eq_fKey]
    exact perform_update_fKey_absent k i c
  cases pg <;> simp [viewSet_retrieve, hkey]

/-! C3. -/

/-- C3 counterexample: with the list key cached and a Record Provider
write that fails, `perform_create` still deletes the list key — the
view-layer invalidation runs before the write, so invalidation does
happen although the write has not succeeded, contradicting the claim. -/
theorem C3_counterexample :
    (perform_create (π := Nat) Kind.user 42 false
        (Cache.set Cache.empty "user_list" 7 900)).succeeded = false ∧
    (perform_create (π := Nat) Kind.user 42 false
        (Cache.set Cache.empty "user_list" 7 900)).cache.get "user_list"
      = none := by
  exact ⟨rfl, rfl⟩

/-- C3 amended: invalidation is synchronous and completes before the
write operation's result is finished, but the view-layer key deletions
run *before* the write and therefore also run when the write fails; the
signal-layer deletions (list key, plus f-string detail key on update /
delete) additionally run synchronously after a successful write.  In
particular the affected keys are absent from the final cache whether or
not the write succeeded. -/
theorem C3_amended_invalidation_timing {π : Type} (k : Kind) (i : Nat)
    (writeOk : Bool) (c : Cache π) :
    (perform_create k i writeOk c).cache.get k.listKey = none ∧
    (perform_update k i writeOk c).cache.get k.listKey = none ∧
    (perform_destroy k i writeOk c).cache.get k.listKey = none ∧
    (perform_update k i true c).cache.get (k.fKey i) = none ∧
    (perform_destroy k i true c).cache.get (k.fKey i) = none ∧
    (perform_create k i writeOk c).succeeded = writeOk :=
  ⟨perform_create_listKey_absent k i writeOk c,
   perform_update_listKey_absent k i writeOk c,
   perform_destroy_listKey_absent k i writeOk c,
   perform_update_fKey_absent k i c,
   perform_destroy_fKey_absent k i c,
   by cases writeOk <;> rfl⟩

/-! C5. -/

/-- C5: a successful create of kind `k` deletes the list key and leaves
every other key (in particular every detail key) unchanged; afterwards,
if the new id had no cache entry, a first `retrieve(k, new_id)` misses
and issues one provider call, and a second `retrieve(k, new_id)` is a
pure cache hit with zero provider calls, returning the first call's
payload with the cache unchanged. -/
theorem C5_create_frame_and_scenario {ε π : Type} (k : Kind) (newId : Nat)
    (c : Cache π) (d : π) (pg₂ : Except ε π)
    (h : c.get (k.fKey newId) = none) :
    (perform_create k newId true c).cache.get k.listKey = none ∧
    (∀ key, key ≠ k.listKey →
      (perform_create k newId true c).cache.get key = c.get key) ∧
    (viewSet_retrieve (ε := ε) k (.str (toString newId)) (.ok d)
        (perform_create k newId true c).cache).providerCalls = 1 ∧
    viewSet_retrieve (ε := ε) k (.str (toString newId)) pg₂
        (viewSet_retrieve (ε := ε) k (.str (toString newId)) (.ok d)
          (perform_create k newId true c).cache).cache
      = ⟨.ok d,
          (viewSet_retrieve (ε := ε) k (.str (toString newId)) (.ok d)
            (perform_create k newId true c).cache).cache, 0⟩ := by
  have hframe : ∀ key, key ≠ k.listKey →
      (perform_create k newId true c).cache.get key = c.get key := by
    intro key hkey
    rw [perform_create_cache_true, Cache.get_delete_ne _ _ _ hkey,
      Cache.get_delete_ne _ _ _ hkey]
  have hmiss : (perform_create k newId true c).cache.get
      (get_cache_key k.name (.str (toString newId))) = none := by
    rw [retrieve_key_eq_fKey, hframe (k.fKey newId) (fKey_ne_listKey k newId)]
    exact h
  have hfirst : viewSet_retrieve (ε := ε) k (.str (toString newId)) (.ok d)
      (perform_create k newId true c).cache
      = ⟨.ok d, (perform_create k newId true c).cache.set
          (get_cache_key k.name (.str (toString newId))) d CACHE_TTL, 1⟩ := by
    simp [viewSet_retrieve, hmiss]
  refine ⟨perform_create_listKey_absent k newId true c, hframe, ?_, ?_⟩
  · rw [hfirst]
  · rw [hfirst]
    simp [viewSet_retrieve, Cache.get_set_self]

/-- C5 witness: concrete run of the create-then-retrieve-twice
scenario for user id 42. -/
theorem C5_witness :
    Cache.get (Cache.empty : Cache Nat) (Kind.user.fKey 42) = none ∧
    ((perform_create Kind.user 42 true (Cache.empty : Cache Nat)).cache.get
        Kind.user.listKey = none ∧
     (∀ key, key ≠ Kind.user.listKey →
       (perform_create Kind.user 42 true (Cache.empty : Cache Nat)).cache.get key
         = (Cache.empty : Cache Nat).get key) ∧
     (viewSet_retrieve (ε := Unit) Kind.user (.str (toString 42)) (.ok 5)
        (perform_create Kind.user 42 true (Cache.empty : Cache Nat)).cache).providerCalls
       = 1 ∧
     viewSet_retrieve (ε := Unit) Kind.user (.str (toString 42)) (.error ())
        (viewSet_retrieve (ε := Unit) Kind.user (.str (toString 42)) (.ok 5)
          (perform_create Kind.user 42 true (Cache.empty : Cache Nat)).cache).cache
      = ⟨.ok 5,
          (viewSet_retrieve (ε := Unit) Kind.user (.str (toString 42)) (.ok 5)
            (perform_create Kind.user 42 true (Cache.empty : Cache Nat)).cache).cache,
          0⟩) :=
  ⟨rfl, C5_create_frame_and_scenario Kind.user 42 Cache.empty 5 (.error ()) rfl⟩

/-! C7. -/

/-- C7 counterexample: with the cache backend raising on `get`, the
`list` body (which has no `try/except`) propagates the exception
instead of degrading to a provider fetch: the result is the error, not
a normal response served by one provider call. -/
theorem C7_counterexample :
    viewSet_list_cacheExc (π := Nat) Kind.user (fun _ => .error 13) 5
      = .error 13 ∧
    viewSet_list_cacheExc (π := Nat) Kind.user (fun _ => .error 13) 5
      ≠ .ok (5, 1) :=
  ⟨rfl, fun h => Except.noConfusion h⟩

/-- C7 amended: when the cache backend raises on `get`, both the list
and the retrieve read paths propagate that exception and the request
fails; no fallback to the Record Provider is implemented in the view
layer. -/
theorem C7_amended_cache_error_propagates {ε π : Type} (k : Kind) (pk : PyVal)
    (e : ε) (p : π) (pg : Except ε π) :
    viewSet_list_cacheExc k (fun _ => .error e) p = .error e ∧
    viewSet_retrieve_cacheExc k pk (fun _ => .error e) pg = .error e :=
  ⟨rfl, rfl⟩

/-! C8. -/

/-- Serialization of an all-successful record list succeeds with the
list of payloads. -/
theorem mapM_allOk {ε π : Type} (l : List (Nat × π)) :
    ((l.map (fun p => (p.1, (Except.ok p.2 : Except ε π)))).mapM (fun r => r.2))
      = .ok (l.map Prod.snd) := by
  induction l with
  | nil => rfl
  | cons hd tl ih =>
    rw [List.map_cons, List.mapM_cons, ih]
    rfl

/-- Serialization of a record list whose head fails raises that
failure. -/
theorem mapM_cons_err {ε π : Type} (i : Nat) (e : ε)
    (tl : List (Nat × Except ε π)) :
    (((i, Except.error e) :: tl).mapM (fun r => r.2)) = .error e := by
  rw [List.mapM_cons]
  rfl

/-- C8 counterexample: one failing user record makes the whole warm
command raise: no counts are reported and the perfectly healthy
passenger kind is never warmed — the command does not continue past the
failure. -/
theorem C8_counterexample :
    (Command_handle (ε := Nat) (π := Nat) false
        (fun k => match k with
          | .user => [(1, .error 9)]
          | .passenger => [(2, .ok 5)]
          | .rider => []) Cache.empty).raised = some 9 ∧
    (Command_handle (ε := Nat) (π := Nat) false
        (fun k => match k with
          | .user => [(1, .error 9)]
          | .passenger => [(2, .ok 5)]
          | .rider => []) Cache.empty).reports = [] ∧
    (Command_handle (ε := Nat) (π := Nat) false
        (fun k => match k with
          | .user => [(1, .error 9)]
          | .passenger => [(2, .ok 5)]
          | .rider => []) Cache.empty).cache.get "passenger_list" = none :=
  ⟨rfl, rfl, rfl⟩

/-- C8 amended: when a record fails during warming, the command logs
the error and re-raises, aborting the whole operation: a failure in the
first kind yields no reported counts and leaves the cache as it was,
and a failure in a later kind keeps only the counts and cache entries
of the kinds completed before it. -/
theorem C8_amended_warm_aborts {ε π : Type}
    (recs : Kind → List (Nat × Except ε π)) (c0 : Cache (Payload π)) :
    (∀ e, (recs .user).mapM (fun r => r.2) = .error e →
      Command_handle false recs c0 = ⟨c0, [], some e⟩) ∧
    (∀ e c₁ n₁, warm_kind Kind.user (recs .user) c0 = .ok (c₁, n₁) →
      (recs .passenger).mapM (fun r => r.2) = .error e →
      Command_handle false recs c0 = ⟨c₁, [(.user, n₁)], some e⟩) ∧
    (∀ e c₁ n₁ c₂ n₂, warm_kind Kind.user (recs .user) c0 = .ok (c₁, n₁) →
      warm_kind Kind.passenger (recs .passenger) c₁ = .ok (c₂, n₂) →
      (recs .rider).mapM (fun r => r.2) = .error e →
      Command_handle false recs c0
        = ⟨c₂, [(.user, n₁), (.passenger, n₂)], some e⟩) := by
  refine ⟨?_, ?_, ?_⟩
  · intro e he
    have hu : warm_kind (ε := ε) Kind.user (recs .user) c0 = .error e := by
      unfold warm_kind
      rw [he]
    simp [Command_handle, hu]
  · intro e c₁ n₁ hu hp
    have hp' : warm_kind (ε := ε) Kind.passenger (recs .passenger) c₁
        = .error e := by
      unfold warm_kind
      rw [hp]
    simp [Command_handle, hu, hp']
  · intro e c₁ n₁ c₂ n₂ hu hp hr
    have hr' : warm_kind (ε := ε) Kind.rider (recs .rider) c₂ = .error e := by
      unfold warm_kind
      rw [hr]
    simp [Command_handle, hu, hp, hr']

/-- C8 witness: a failure in the passenger kind keeps the user count
and cache entries, reports only the user line, and re-raises; a failure
in the rider kind keeps the user and passenger counts and cache
entries, reports exactly those two lines, and re-raises with the rider
kind neither warmed nor reported. -/
theorem C8_witness :
    warm_kind (ε := Nat) Kind.user [(1, .ok 10)] (Cache.empty : Cache (Payload Nat))
      = .ok (⟨[("user_1", .item 10), ("user_list", .items [10])]⟩, 1) ∧
    ([((2 : Nat), (Except.error 7 : Except Nat Nat))].mapM (fun r => r.2)
      = .error 7) ∧
    Command_handle false
        (fun k => match k with
          | Kind.user => [(1, .ok 10)]
          | Kind.passenger => [(2, .error 7)]
          | Kind.rider => [(3, .ok 30)]) (Cache.empty : Cache (Payload Nat))
      = ⟨⟨[("user_1", .item 10), ("user_list", .items [10])]⟩, [(.user, 1)], some 7⟩ ∧
    Command_handle false
        (fun k => match k with
          | Kind.user => [(1, .ok 10)]
          | Kind.passenger => [(2, .ok 20)]
          | Kind.rider => [(3, .error 5)]) (Cache.empty : Cache (Payload Nat))
      = ⟨⟨[("passenger_2", .item 20), ("passenger_list", .items [20]),
          ("user_1", .item 10), ("user_list", .items [10])]⟩,
         [(.user, 1), (.passenger, 1)], some 5⟩ :=
  ⟨rfl, rfl,
    (C8_amended_warm_aborts
      (fun k => match k with
        | Kind.user => [(1, .ok 10)]
        | Kind.passenger => [(2, .error 7)]
        | Kind.rider => [(3, .ok 30)]) Cache.empty).2.1 7 _ 1 rfl rfl,
    (C8_amended_warm_aborts
      (fun k => match k with
        | Kind.user => [(1, .ok 10)]
        | Kind.passenger => [(2, .ok 20)]
        | Kind.rider => [(3, .error 5)]) Cache.empty).2.2 5 _ 1 _ 1 rfl rfl rfl⟩

/-! C9. -/

/-- A fold of detail-key `cache.set`s never removes a present key. -/
theorem get_foldl_set_isSome {π : Type} (k : Kind) (l : List (Nat × π))
    (c : Cache (Payload π)) (key : String)
    (h : ∃ w, c.get key = some w) :
    ∃ w, (l.foldl (fun acc p => acc.set (k.fKey p.1) (.item p.2) CACHE_TTL) c).get key
      = some w := by
  induction l generalizing c with
  | nil => exact h
  | cons hd tl ih =>
    exact ih _ (Cache.get_set_isSome _ _ _ _ _ h)

/-- After the detail-key fold, every id occurring in the list has a
present detail key. -/
theorem get_foldl_set_mem {π : Type} (k : Kind) (l : List (Nat × π))
    (c : Cache (Payload π)) (i : Nat) (hmem : i ∈ l.map Prod.fst) :
    ∃ v, (l.foldl (fun acc p => acc.set (k.fKey p.1) (.item p.2) CACHE_TTL) c).get
        (k.fKey i) = some v := by
  induction l generalizing c with
  | nil => simp at hmem
  | cons hd tl ih =>
    rw [List.map_cons, List.mem_cons] at hmem
    rcases hmem with heq | hmem
    · subst heq
      exact get_foldl_set_isSome k tl _ _
        ⟨Payload.item hd.2, Cache.get_set_self _ _ _ _⟩
    · exact ih _ hmem

/-- On an all-successful record list, one per-kind warm block sets the
list key and then folds the detail-key sets over the records, reporting
the record count. -/
theorem warm_kind_allOk_eq {ε π : Type} (k : Kind) (l : List (Nat × π))
    (c : Cache (Payload π)) :
    warm_kind (ε := ε) k (l.map (fun p => (p.1, .ok p.2))) c
      = .ok (l.foldl (fun acc p => acc.set (k.fKey p.1) (.item p.2) CACHE_TTL)
          (c.set k.listKey (.items (l.map Prod.snd)) CACHE_TTL), l.length) := by
  unfold warm_kind
  rw [mapM_allOk]
  dsimp only
  rw [List.zip_map', List.foldl_map]
  simp

/-- Per-kind warm block on all-successful records: success with the
record count, list key present, every listed id's detail key present,
and every previously present key still present. -/
theorem warm_kind_allOk_spec {ε π : Type} (k : Kind) (l : List (Nat × π))
    (c : Cache (Payload π)) :
    ∃ c', warm_kind (ε := ε) k (l.map (fun p => (p.1, .ok p.2))) c
        = .ok (c', l.length) ∧
      (∃ w, c'.get k.listKey = some w) ∧
      (∀ i, i ∈ l.map Prod.fst → ∃ v, c'.get (k.fKey i) = some v) ∧
      (∀ key, (∃ w, c.get key = some w) → ∃ w, c'.get key = some w) := by
  refine ⟨_, warm_kind_allOk_eq (ε := ε) k l c, ?_, ?_, ?_⟩
  · exact get_foldl_set_isSome k l _ _ ⟨_, Cache.get_set_self _ _ _ _⟩
  · intro i hmem
    exact get_foldl_set_mem k l _ i hmem
  · intro key hkey
    exact get_foldl_set_isSome k l _ _ (Cache.get_set_isSome _ _ _ _ _ hkey)

/-- C9: with every record serializing successfully, the warm command
raises nothing, reports the per-kind counts in order, leaves every
kind's list key populated, leaves a detail key populated for every
warmed id, and a subsequent `retrieve(kind, id)` for any warmed id is a
cache hit with zero Record Provider calls. -/
theorem C9_warm_populates_and_read_hits {ε π : Type}
    (good : Kind → List (Nat × π)) (c0 : Cache (Payload π)) (k : Kind) (i : Nat)
    (pg : Except ε (Payload π))
    (hmem : i ∈ (good k).map Prod.fst) :
    (Command_handle (ε := ε) false
        (fun k' => (good k').map (fun p => (p.1, .ok p.2))) c0).raised = none ∧
    (Command_handle (ε := ε) false
        (fun k' => (good k').map (fun p => (p.1, .ok p.2))) c0).reports
      = [(.user, (good .user).length), (.passenger, (good .passenger).length),
         (.rider, (good .rider).length)] ∧
    (∀ k' : Kind, ∃ w, (Command_handle (ε := ε) false
        (fun k' => (good k').map (fun p => (p.1, .ok p.2))) c0).cache.get
          k'.listKey = some w) ∧
    (∃ v, (Command_handle (ε := ε) false
        (fun k' => (good k').map (fun p => (p.1, .ok p.2))) c0).cache.get
          (k.fKey i) = some v) ∧
    (viewSet_retrieve (ε := ε) k (.str (toString i)) pg
        (Command_handle (ε := ε) false
          (fun k' => (good k').map (fun p => (p.1, .ok p.2))) c0).cache).providerCalls
      = 0 := by
  obtain ⟨cu, hueq, hul, hud, humono⟩ :=
    warm_kind_allOk_spec (ε := ε) Kind.user (good .user) c0
  obtain ⟨cp, hpeq, hpl, hpd, hpmono⟩ :=
    warm_kind_allOk_spec (ε := ε) Kind.passenger (good .passenger) cu
  obtain ⟨cr, hreq, hrl, hrd, hrmono⟩ :=
    warm_kind_allOk_spec (ε := ε) Kind.rider (good .rider) cp
  have hch : Command_handle (ε := ε) false
      (fun k' => (good k').map (fun p => (p.1, .ok p.2))) c0
      = ⟨cr, [(.user, (good .user).length), (.passenger, (good .passenger).length),
          (.rider, (good .rider).length)], none⟩ := by
    simp [Command_handle, hueq, hpeq, hreq]
  have hdetail : ∃ v, (Command_handle (ε := ε) false
      (fun k' => (good k').map (fun p => (p.1, .ok p.2))) c0).cache.get
        (k.fKey i) = some v := by
    rw [hch]
    cases k with
    | user => exact hrmono _ (hpmono _ (hud i hmem))
    | passenger => exact hrmono _ (hpd i hmem)
    | rider => exact hrd i hmem
  refine ⟨by rw [hch], by rw [hch], ?_, hdetail, ?_⟩
  · intro k'
    rw [hch]
    cases k' with
    | user => exact hrmono _ (hpmono _ hul)
    | passenger => exact hrmono _ hpl
    | rider => exact hrl
  · obtain ⟨v, hv⟩ := hdetail
    have hkey : (Command_handle (ε := ε) false
        (fun k' => (good k').map (fun p => (p.1, .ok p.2))) c0).cache.get
          (get_cache_key k.name (.str (toString i))) = some v := by
      rw [retrieve_key_eq_fKey]
      exact hv
    simp [viewSet_retrieve, hkey]

/-- C9 witness: warming one user, one passenger and one rider populates
everything and a retrieve of the warmed user id 1 is a pure hit. -/
theorem C9_witness :
    (1 : Nat) ∈ ((demoRecords .user).map Prod.fst) ∧
    ((Command_handle (ε := Unit) false
        (fun k' => (demoRecords k').map (fun p => (p.1, .ok p.2)))
        Cache.empty).raised = none ∧
     (Command_handle (ε := Unit) false
        (fun k' => (demoRecords k').map (fun p => (p.1, .ok p.2)))
        Cache.empty).reports
       = [(.user, (demoRecords .user).length),
          (.passenger, (demoRecords .passenger).length),
          (.rider, (demoRecords .rider).length)] ∧
     (∀ k' : Kind, ∃ w, (Command_handle (ε := Unit) false
        (fun k' => (demoRecords k').map (fun p => (p.1, .ok p.2)))
        Cache.empty).cache.get k'.listKey = some w) ∧
     (∃ v, (Command_handle (ε := Unit) false
        (fun k' => (demoRecords k').map (fun p => (p.1, .ok p.2)))
        Cache.empty).cache.get (Kind.user.fKey 1) = some v) ∧
     (viewSet_retrieve (ε := Unit) Kind.user (.str (toString 1)) (.error ())
        (Command_handle (ε := Unit) false
          (fun k' => (demoRecords k').map (fun p => (p.1, .ok p.2)))
          Cache.empty).cache).providerCalls = 0) :=
  ⟨by simp [demoRecords],
    C9_warm_populates_and_read_hits demoRecords Cache.empty Kind.user 1
      (.error ()) (by simp [demoRecords])⟩
